import Mathlib

/-!
# Verification of the fastify listener lifecycle core (`lib/server.js`)

This development gives a shallow embedding, in Lean 4, of the listener
lifecycle manager found in `lib/server.js`: the listen-argument
normalizer (`normalizeListenArgs`, `normalizePort`), the listener state
machine (`listenCallback`, `listenPromise`), the dual-stack binder
(`multipleBindings`), the address reporter (`logServerAddress`) and the
protocol-version gate compiler (`compileValidateHTTPVersion`).

Modelling conventions:
* JavaScript values that flow through the variadic `listen` surface are
  embedded as the inductive `JSVal`.  `Number(v)` conversion for strings
  is modelled for decimal literals (optional sign, digits, optional
  fractional part); exotic numeric syntaxes (hex, exponents, Infinity)
  are outside the inputs any claim exercises.
* The Node event loop is embedded by making the asynchronous outcomes
  explicit parameters (the bind outcome of `server.listen`, the result
  of `dns.lookup`) and by recording the sequence of observable events
  (callback invocations, bind attempts/completions) as explicit traces.
* `undefined`/`null` slots of callbacks are both rendered as `Option.none`.
-/

/-- Embedded JavaScript values as they appear on the `listen` call surface.
`vint` is an integral finite number, `vfloat` stands for a finite
non-integral number (its exact value is never consumed by this code:
`Number.isInteger` is false for it and `normalizePort` maps it to 0),
`vnan` is `NaN`. -/
inductive JSVal where
  | vundef
  | vnull
  | vbool (b : Bool)
  | vint (n : Int)
  | vfloat
  | vnan
  | vstr (s : String)
  | vfunc
deriving DecidableEq, Repr

namespace ServerJs

/-- Value of a nonempty run of decimal digits; `none` if a non-digit occurs. -/
def digitsVal? : List Char → Option Nat
  | [] => none
  | ds =>
    ds.foldl
      (fun acc c =>
        acc.bind fun n => if c.isDigit then some (n * 10 + (c.toNat - 48)) else none)
      (some 0)

/-- Split a character list at the first `'.'`, if any. -/
def splitDot : List Char → (List Char × Option (List Char))
  | [] => ([], none)
  | c :: cs =>
    if c = '.' then ([], some cs)
    else
      let r := splitDot cs
      (c :: r.1, r.2)

/-- JavaScript `Number(s)` for a string, restricted to decimal literals.
`none` means the conversion yields `NaN`; `some none` means a finite
non-integral number; `some (some n)` means the integral number `n`.
The empty string converts to `0`, mirroring `Number('') === 0`. -/
def jsStringNumeric (s : String) : Option (Option Int) :=
  match s.data with
  | [] => some (some 0)
  | ds₀ =>
    let neg : Bool := ds₀.head? = some '-'
    let ds := if neg then ds₀.tail else ds₀
    let (ip, fp) := splitDot ds
    match fp with
    | none =>
      match digitsVal? ip with
      | some n => some (some (if neg then -(n : Int) else (n : Int)))
      | none => none
    | some f =>
      -- "12.", "12.0", ".5" are all numbers; integral when the
      -- fractional digits are absent or all zero.
      if (ip ++ f).isEmpty then none
      else if (ip ++ f).all Char.isDigit then
        if f.all (· = '0') then
          some (some (if neg then -((digitsVal? ip).getD 0 : Int)
                      else ((digitsVal? ip).getD 0 : Int)))
        else some none
      else none

/-- JavaScript `Number(v)` when the result is an integral number;
`none` when the conversion yields `NaN` or a non-integral number
(both make `Number.isInteger(port)` false inside `normalizePort`). -/
def jsToIntegerNumber : JSVal → Option Int
  | .vundef => none
  | .vnull => some 0
  | .vbool b => some (if b then 1 else 0)
  | .vint n => some n
  | .vfloat => none
  | .vnan => none
  | .vstr s => (jsStringNumeric s).bind id
  | .vfunc => none

/-- JavaScript `Number.isInteger(v)`. -/
def jsNumberIsInteger : JSVal → Bool
  | .vint _ => true
  | _ => false

/-- The integral value of a `vint`; only consulted under a
`jsNumberIsInteger` guard. -/
def jsIntValue : JSVal → Int
  | .vint n => n
  | _ => 0

/-- JavaScript truthiness. -/
def truthy : JSVal → Bool
  | .vundef => false
  | .vnull => false
  | .vbool b => b
  | .vint n => n ≠ 0
  | .vfloat => true
  | .vnan => false
  | .vstr s => s ≠ ""
  | .vfunc => true

/-- `typeof firstArg === 'string' && isNaN(firstArg)`: the first
argument is a string that does not convert to a number, hence is taken
as a pipe/unix-socket path. -/
def pathCandidate : JSVal → Option String
  | .vstr s => if (jsStringNumeric s).isNone then some s else none
  | _ => none

/-- The canonical normalized listen request produced by
`normalizeListenArgs`.  `cb` records whether a trailing function was
extracted as the completion callback. -/
structure ListenOptions where
  cb : Bool := false
  port : Option Int := none
  host : Option JSVal := none
  path : Option String := none
  backlog : Option JSVal := none
deriving DecidableEq, Repr

/-- `normalizePort` from `lib/server.js`:
`port >= 0 && !Number.isNaN(port) && Number.isInteger(port) ? port : 0`. -/
def normalizePort (firstArg : JSVal) : Int :=
  match jsToIntegerNumber firstArg with
  | some port => if 0 ≤ port then port else 0
  | none => 0

/-- `normalizeListenArgs` from `lib/server.js`. -/
def normalizeListenArgs (args : List JSVal) : ListenOptions :=
  if args.length = 0 then
    { cb := false, port := some 0, host := some (.vstr "localhost") }
  else
    -- const cb = typeof args[args.length - 1] === 'function' ? args.pop() : undefined
    let hasCb : Bool := args.getLast? = some .vfunc
    let args := if hasCb then args.dropLast else args
    let firstArg := args.headD .vundef
    let argsLength := args.length
    let lastArg := args.getLastD .vundef
    match pathCandidate firstArg with
    | some s =>
      -- Deal with listen (pipe[, backlog])
      { cb := hasCb, path := some s
        backlog := if 1 < argsLength then some lastArg else none }
    | none =>
      -- Deal with listen ([port[, host[, backlog]]])
      { cb := hasCb
        port := some (if decide (1 ≤ argsLength) && jsNumberIsInteger firstArg
                      then jsIntValue firstArg else normalizePort firstArg)
        host := some (if decide (2 ≤ argsLength) && truthy (args.getD 1 .vundef)
                      then args.getD 1 .vundef else .vstr "localhost")
        backlog := if 3 ≤ argsLength then some (args.getD 2 .vundef) else none }

example : normalizeListenArgs [] =
    { cb := false, port := some 0, host := some (.vstr "localhost") } := by decide
example : (normalizeListenArgs [.vstr "/tmp/x.sock"]).path = some "/tmp/x.sock" := by decide
example : (normalizeListenArgs [.vstr "3000"]).port = some 3000 := by decide
example : (normalizeListenArgs [.vint (-1)]).port = some (-1) := by decide
example : (normalizeListenArgs [.vint 3000, .vstr "h", .vint (-2)]).backlog
    = some (.vint (-2)) := by decide
example : (normalizeListenArgs [.vfunc]).port = some 0 := by decide
example : (normalizeListenArgs [.vstr "1.5"]).port = some 0 := by decide
example : (normalizeListenArgs [.vstr "1.5"]).path = none := by decide

/-! ## Listener state and errors -/

/-- The `this[kState]` flags consulted by the listen guards. -/
structure KState where
  listening : Bool
  closing : Bool
deriving DecidableEq, Repr

/-- The errors this module can hand to a caller.
`FST_ERR_REOPENED_CLOSE_SERVER` is `AlreadyClosedError`
("Fastify has already been closed and cannot be reopened"),
`FST_ERR_REOPENED_SERVER` is `AlreadyListeningError`
("Fastify is already listening"), `bindError` is an OS-level
bind/listen failure delivered through the server `error` event, and
`readyError` is a failure of the external readiness gate. -/
inductive FastifyError where
  | FST_ERR_REOPENED_CLOSE_SERVER
  | FST_ERR_REOPENED_SERVER
  | bindError (code : Nat)
  | readyError
deriving DecidableEq, Repr

/-- What the OS reports for a successfully bound listener:
either a unix-socket/named-pipe path (`server.address()` is a string)
or an (ip, port) pair. -/
inductive BoundAddress where
  | unixPath (path : String)
  | ip (address : String) (port : Nat)
deriving DecidableEq, Repr

/-- `logServerAddress` from `lib/server.js`, as a function of the bound
address and of whether TLS (`this[kOptions].https`) is configured.  The
log emission through `listenTextResolver` is an external side effect;
the returned string is the formatted address. -/
def logServerAddress (address : BoundAddress) (https : Bool) : String :=
  match address with
  | .unixPath p => p          -- isUnixSocket: reported verbatim, no scheme
  | .ip a port =>
    -- address.address.indexOf(':') === -1 ?  addr:port  :  [addr]:port
    let hostPort :=
      if a.data.contains ':' = false then a ++ ":" ++ toString port
      else "[" ++ a ++ "]:" ++ toString port
    ("http" ++ (if https then "s" else "") ++ "://") ++ hostPort

/-- The asynchronous outcome of a `server.listen` call: either the
`listening` callback fires with the bound address, or the server emits
an `error` event with a bind error. -/
inductive BindOutcome where
  | success (addr : BoundAddress)
  | failure (code : Nat)
deriving DecidableEq, Repr

/-! ## `listenCallback`

`listenCallback(server, listenOptions)` returns a closure that the
readiness gate invokes.  The closure checks the re-entry guards, then
registers the one-shot `wrap` error observer, calls `server.listen`
and synchronously sets `this[kState].listening = true`.  `wrap` later
fires once with the bind outcome: it removes the error observer, and
either reports the formatted address or demotes `listening` and
reports the error.  The run below executes that whole script for one
listen attempt. -/

/-- Observable result of one callback-form listen attempt. -/
structure CallbackRun where
  /-- `this[kState]` once the attempt has fully settled. -/
  finalState : KState
  /-- the successive invocations of `listenOptions.cb`, in order, as
  `(error?, address?)` pairs (`undefined`/`null` arguments are `none`). -/
  calls : List (Option FastifyError × Option String)
  /-- whether `server.listen` was invoked at all. -/
  bindAttempted : Bool
  /-- `this[kState]` right after `server.listen` was initiated —
  synchronously, before the asynchronous outcome arrives; `none` when
  no bind was attempted. -/
  stateAtBindStart : Option KState
  /-- whether the one-shot `error` observer is still registered on the
  server after the attempt settled. -/
  errorObserverLive : Bool
deriving DecidableEq, Repr

/-- One callback-form listen attempt (`listenCallback` composed with the
readiness gate that invokes it): `st` is `this[kState]` on entry,
`readyErr` the error the readiness gate passed to the closure (if any),
`outcome` the eventual result of `server.listen`, `https` whether TLS
options are configured (consulted by `logServerAddress`). -/
def listenCallbackRun (st : KState) (readyErr : Option FastifyError)
    (outcome : BindOutcome) (https : Bool) : CallbackRun :=
  match readyErr with
  | some e =>
    -- if (err != null) return listenOptions.cb(err)
    { finalState := st, calls := [(some e, none)]
      bindAttempted := false, stateAtBindStart := none, errorObserverLive := false }
  | none =>
    if st.listening && st.closing then
      { finalState := st, calls := [(some .FST_ERR_REOPENED_CLOSE_SERVER, none)]
        bindAttempted := false, stateAtBindStart := none, errorObserverLive := false }
    else if st.listening then
      { finalState := st, calls := [(some .FST_ERR_REOPENED_SERVER, none)]
        bindAttempted := false, stateAtBindStart := none, errorObserverLive := false }
    else
      -- server.once('error', wrap); server.listen(listenOptions, wrap);
      -- this[kState].listening = true
      let stInit : KState := { st with listening := true }
      match outcome with
      | .success a =>
        -- wrap(undefined): removeListener('error', wrap); cb(null, address)
        { finalState := stInit
          calls := [(none, some (logServerAddress a https))]
          bindAttempted := true, stateAtBindStart := some stInit
          errorObserverLive := false }
      | .failure c =>
        -- wrap(err): removeListener('error', wrap);
        -- this[kState].listening = false; cb(err, null)
        { finalState := { stInit with listening := false }
          calls := [(some (.bindError c), none)]
          bindAttempted := true, stateAtBindStart := some stInit
          errorObserverLive := false }

/-! ## `listenPromise` -/

/-- How the promise returned by `listenPromise` settles. -/
inductive PromiseResult where
  | resolved (address : String)
  | rejected (e : FastifyError)
deriving DecidableEq, Repr

/-- Observable result of one promise-form listen attempt. -/
structure PromiseRun where
  finalState : KState
  result : PromiseResult
  bindAttempted : Bool
  stateAtBindStart : Option KState
  errorObserverLive : Bool
deriving DecidableEq, Repr

/-- One promise-form listen attempt (`listenPromise`): the re-entry
guards are checked synchronously before the readiness gate; on a clear
state the `errEvent` promise registers a one-shot error observer,
`server.listen` is initiated and `listening` is set synchronously, and
`Promise.race` settles with whichever of the error event or the listen
callback fires. -/
def listenPromiseRun (st : KState) (readyErr : Option FastifyError)
    (outcome : BindOutcome) (https : Bool) : PromiseRun :=
  if st.listening && st.closing then
    { finalState := st, result := .rejected .FST_ERR_REOPENED_CLOSE_SERVER
      bindAttempted := false, stateAtBindStart := none, errorObserverLive := false }
  else if st.listening then
    { finalState := st, result := .rejected .FST_ERR_REOPENED_SERVER
      bindAttempted := false, stateAtBindStart := none, errorObserverLive := false }
  else
    match readyErr with
    | some e =>
      -- this.ready() rejected: the chained promise rejects, no bind
      { finalState := st, result := .rejected e
        bindAttempted := false, stateAtBindStart := none, errorObserverLive := false }
    | none =>
      -- server.once('error', errEventHandler);
      -- server.listen(listenOptions, ...); this[kState].listening = true
      let stInit : KState := { st with listening := true }
      match outcome with
      | .success a =>
        -- listen callback: removeListener('error', errEventHandler); resolve
        { finalState := stInit
          result := .resolved (logServerAddress a https)
          bindAttempted := true, stateAtBindStart := some stInit
          errorObserverLive := false }
      | .failure c =>
        -- errEventHandler (once): this[kState].listening = false; reject(err)
        { finalState := { stInit with listening := false }
          result := .rejected (.bindError c)
          bindAttempted := true, stateAtBindStart := some stInit
          errorObserverLive := false }

example :
    (listenCallbackRun ⟨true, true⟩ none (.success (.ip "127.0.0.1" 3000)) false).calls
      = [(some .FST_ERR_REOPENED_CLOSE_SERVER, none)] := by decide
example :
    (listenPromiseRun ⟨true, false⟩ none (.success (.ip "127.0.0.1" 3000)) false).result
      = .rejected .FST_ERR_REOPENED_SERVER := by decide

/-! ## `multipleBindings` (dual-stack binder)

`multipleBindings` runs after the primary bind succeeded when the
requested host is `'localhost'`.  It clears `listening`, resolves the
host with `dns.lookup`, and for every resolved address different from
the primary's bound address it creates a secondary server, wires its
teardown to the primary's `unref`/`close`/`error` events, and starts it
through `listenCallback` (whose returned closure is invoked
synchronously with no error).  A per-secondary callback counts
completions and pushes successful secondaries onto
`this[kServerBindings]`; the overall `onListen` fires when
`binded === binding`, or immediately when `binding === 0` or when the
DNS lookup failed.

Embedding: the DNS result and the per-secondary asynchronous bind
outcomes are explicit parameters; the run is split into the
synchronous `for` loop (`mbSyncStep` folded over the addresses) and the
later event-loop delivery of the asynchronous bind outcomes
(`mbAsyncRun`, in initiation order).  Observable events are recorded in
a trace. -/

/-- Primary lifecycle events wired to force-close each secondary. -/
inductive PrimaryEvent where
  | unref
  | close
  | error
deriving DecidableEq, Repr

/-- Observable events of a `multipleBindings` run:
`attempt a` — a secondary bind for address `a` was attempted
(`binding++`); `complete a ok` — that attempt completed, successfully
or not (`binded++`); `onListen` — the overall completion callback was
invoked. -/
inductive MBEvent where
  | attempt (addr : String)
  | complete (addr : String) (ok : Bool)
  | onListen
deriving DecidableEq, Repr

/-- State threaded through a `multipleBindings` run. -/
structure MBState where
  /-- `this[kState].listening` (shared with the listen guards). -/
  listening : Bool
  /-- attempted secondary binds (`binding`). -/
  binding : Nat
  /-- completed secondary binds (`binded`). -/
  binded : Nat
  /-- `(host, port)` of each secondary whose `server.listen` was
  actually initiated, in order; the asynchronous outcomes are still
  pending at the end of the synchronous loop. -/
  pending : List (String × Nat)
  /-- `this[kServerBindings]`: successfully bound secondaries. -/
  bindings : List (String × Nat)
  /-- teardown wiring: `(addr, e)` means a close of the secondary for
  `addr` is registered on the primary's event `e`. -/
  wired : List (String × PrimaryEvent)
  /-- the observable event trace so far. -/
  trace : List MBEvent
deriving DecidableEq, Repr

/-- The state at entry of the `dns.lookup` callback:
`this[kState].listening = false` was just assigned, no secondary has
been attempted. -/
def mbInit : MBState :=
  { listening := false, binding := 0, binded := 0
    pending := [], bindings := [], wired := [], trace := [] }

/-- One iteration of the `for (const adr of addresses)` loop.
`closing` is `this[kState].closing` (fixed during the run), `primary`
the primary server's bound `(address, port)`.  For a non-primary
address the secondary server is created and wired, then
`listenCallback(secondaryServer, secondaryOpts)()` runs synchronously:
if the shared `listening` flag is already set the guard fails and the
per-secondary callback completes at once with an error (absorbed, not
retained); otherwise the bind is initiated asynchronously and
`listening` is set. -/
def mbSyncStep (closing : Bool) (primary : String × Nat)
    (s : MBState) (adr : String) : MBState :=
  if adr ≠ primary.1 then
    let s := { s with binding := s.binding + 1
                      wired := s.wired ++
                        [(adr, PrimaryEvent.unref), (adr, PrimaryEvent.close),
                         (adr, PrimaryEvent.error)]
                      trace := s.trace ++ [MBEvent.attempt adr] }
    if s.listening && closing then
      -- listenCallback guard: cb(new FST_ERR_REOPENED_CLOSE_SERVER(), null)
      let binded := s.binded + 1
      { s with binded
               trace := s.trace ++ [MBEvent.complete adr false]
                 ++ if binded = s.binding then [MBEvent.onListen] else [] }
    else if s.listening then
      -- listenCallback guard: cb(new FST_ERR_REOPENED_SERVER(), null)
      let binded := s.binded + 1
      { s with binded
               trace := s.trace ++ [MBEvent.complete adr false]
                 ++ if binded = s.binding then [MBEvent.onListen] else [] }
    else
      -- server.once('error', wrap); server.listen(secondaryOpts, wrap);
      -- this[kState].listening = true  — outcome delivered later
      { s with listening := true, pending := s.pending ++ [(adr, primary.2)] }
  else s

/-- Event-loop delivery of the pending asynchronous bind outcomes, in
initiation order.  `outcome i` tells whether the `i`-th initiated
secondary bind succeeded.  `wrap` demotes the shared `listening` flag
on error, then the per-secondary callback counts the completion,
retains a successful secondary in `kServerBindings`, and fires
`onListen` when `binded === binding`. -/
def mbAsyncRun (outcome : Nat → Bool) :
    List (String × Nat) → Nat → MBState → MBState
  | [], _, s => s
  | (adr, port) :: rest, i, s =>
    let ok := outcome i
    let s := { s with listening := if ok then s.listening else false }
    let binded := s.binded + 1
    let s := { s with binded
                      bindings := if ok then s.bindings ++ [(adr, port)] else s.bindings
                      trace := s.trace ++ [MBEvent.complete adr ok]
                        ++ if binded = s.binding then [MBEvent.onListen] else [] }
    mbAsyncRun outcome rest (i + 1) s

/-- A full `multipleBindings` run.  `dnsResult = none` models a
`dns.lookup` error (the overall completion fires at once); otherwise
the synchronous loop runs over the resolved addresses, the
`binding === 0` shortcut fires `onListen` when no secondary was
attempted, and the pending asynchronous outcomes are then delivered. -/
def multipleBindings (closing : Bool) (dnsResult : Option (List String))
    (primary : String × Nat) (outcome : Nat → Bool) : MBState :=
  match dnsResult with
  | none => { mbInit with trace := [MBEvent.onListen] }
  | some addresses =>
    let s := addresses.foldl (mbSyncStep closing primary) mbInit
    let s := if s.binding = 0 then { s with trace := s.trace ++ [MBEvent.onListen] } else s
    mbAsyncRun outcome s.pending 0 s

/-- Number of `onListen` events in a trace. -/
def countOnListen (tr : List MBEvent) : Nat :=
  tr.countP fun e => match e with | .onListen => true | _ => false

/-- Number of `attempt` events in a trace. -/
def countAttempts (tr : List MBEvent) : Nat :=
  tr.countP fun e => match e with | .attempt _ => true | _ => false

/-- Number of `complete` events in a trace. -/
def countCompletes (tr : List MBEvent) : Nat :=
  tr.countP fun e => match e with | .complete _ _ => true | _ => false

/-- The initiated secondary binds whose asynchronous outcome (numbered
from `i`) succeeded: exactly the secondaries that the per-secondary
callback pushes onto `kServerBindings`. -/
def pendingOutcomes (outcome : Nat → Bool) :
    List (String × Nat) → Nat → List (String × Nat)
  | [], _ => []
  | a :: rest, i =>
    (if outcome i then [a] else []) ++ pendingOutcomes outcome rest (i + 1)

/-- Invariant maintained by the synchronous `for` loop of
`multipleBindings`: attempted = completed + initiated-and-pending, the
shared listening flag implies a pending initiation, completions without
initiations are impossible, no `onListen` yet, the counted events match
the counters, and no secondary has been retained yet. -/
structure MBSyncInv (s : MBState) : Prop where
  bind_eq : s.binding = s.binded + s.pending.length
  pend_of_listening : s.listening = true → s.pending ≠ []
  pend_empty : s.pending = [] → s.binded = 0
  no_onListen : countOnListen s.trace = 0
  attempts_eq : countAttempts s.trace = s.binding
  completes_eq : countCompletes s.trace = s.binded
  bindings_nil : s.bindings = []

example :
    (multipleBindings false (some ["127.0.0.1", "::1"]) ("127.0.0.1", 3000)
      (fun _ => true)).trace
    = [.attempt "::1", .complete "::1" true, .onListen] := by decide
example :
    (multipleBindings false (some ["127.0.0.1", "::1"]) ("127.0.0.1", 3000)
      (fun _ => true)).bindings = [("::1", 3000)] := by decide
example :
    (multipleBindings false none ("127.0.0.1", 3000) (fun _ => true)).trace
    = [.onListen] := by decide
example :
    (multipleBindings false (some ["127.0.0.1"]) ("127.0.0.1", 3000)
      (fun _ => true)).trace = [.onListen] := by decide
example :
    (multipleBindings false (some ["a", "b", "c"]) ("a", 3000)
      (fun i => i = 0)).trace
    = [.attempt "b", .attempt "c", .complete "c" false,
       .complete "b" true, .onListen] := by decide

/-! ## `compileValidateHTTPVersion` (protocol-version gate) -/

/-- The `options.https` object as consulted by the gate compiler:
`allowHTTP1` may be any JavaScript value, the gate requires it to be
strictly (`===`) `true`. -/
structure HttpsOptions where
  allowHTTP1 : JSVal
deriving DecidableEq, Repr

/-- The fastify options consulted by `compileValidateHTTPVersion`:
whether a custom `serverFactory` was supplied, whether `http2` is
enabled, and the `https` options object if present. -/
structure GateOptions where
  serverFactory : Bool
  http2 : Bool
  https : Option HttpsOptions
deriving DecidableEq, Repr

/-- `compileValidateHTTPVersion` from `lib/server.js`: compiles the
options into the hot-path predicate
`httpVersion => bypass || map.has(httpVersion)`. -/
def compileValidateHTTPVersion (options : GateOptions) : String → Bool :=
  let bypass : Bool := options.serverFactory
  let map : List String :=
    if options.http2 then
      -- HTTP2 must serve HTTP/2.0
      ["2.0"] ++
        (match options.https with
         | some https =>
           if https.allowHTTP1 = JSVal.vbool true then ["1.1", "1.0"] else []
         | none => [])
    else
      -- HTTP must serve HTTP/1.1 and HTTP/1.0
      ["1.1", "1.0"]
  fun httpVersion => bypass || map.contains httpVersion

example : compileValidateHTTPVersion ⟨false, false, none⟩ "1.1" = true := by decide
example : compileValidateHTTPVersion ⟨false, false, none⟩ "2.0" = false := by decide
example : compileValidateHTTPVersion ⟨false, true, some ⟨.vbool true⟩⟩ "1.0" = true := by decide
example : compileValidateHTTPVersion ⟨false, true, some ⟨.vint 1⟩⟩ "1.0" = false := by decide
example : compileValidateHTTPVersion ⟨true, false, none⟩ "0.9" = true := by decide

/-! ## Host resolution in `listen` -/

/-- The host value computed by `listen` (lines 70–76): when no `path`
is specified the host defaults to `'localhost'` via `??`; when a path
is specified the caller's host is taken as is (possibly undefined). -/
def resolveListenHost (path : Option String) (host : Option JSVal) : Option JSVal :=
  if path = none then some (host.getD (.vstr "localhost")) else host

/-- `listen` inserts the `multipleBindings` step exactly when the
resolved host is the literal `'localhost'`. -/
def triggersDualStack (path : Option String) (host : Option JSVal) : Bool :=
  resolveListenHost path host = some (.vstr "localhost")

example : resolveListenHost (some "/tmp/x.sock") none = none := by decide
example : triggersDualStack none none = true := by decide
example : triggersDualStack (some "/tmp/x.sock") none = false := by decide

/-! ## Helper lemmas -/

/-- `normalizePort` always yields a non-negative integer. -/
theorem normalizePort_nonneg (v : JSVal) : 0 ≤ normalizePort v := by
  unfold normalizePort
  cases h : jsToIntegerNumber v with
  | none => simp
  | some port => by_cases hp : 0 ≤ port <;> simp [hp]

/-- A value passing `Number.isInteger` is a `vint` of its value. -/
theorem jsNumberIsInteger_eq (v : JSVal) (h : jsNumberIsInteger v = true) :
    v = .vint (jsIntValue v) := by
  cases v <;> simp_all [jsNumberIsInteger, jsIntValue]

/-- The argument list after the trailing-callback extraction is a
sublist of the original argument list. -/
theorem argsAfterCb_sublist (args : List JSVal) :
    (if args.getLast? = some JSVal.vfunc then args.dropLast else args).Sublist args := by
  split
  · exact List.dropLast_sublist args
  · exact List.Sublist.refl args

/-- Every normalized request sets exactly one of `{path}` and
`{port, host}`. -/
theorem normalizeListenArgs_shape (args : List JSVal) :
    ((∃ s, (normalizeListenArgs args).path = some s)
        ∧ (normalizeListenArgs args).port = none
        ∧ (normalizeListenArgs args).host = none)
    ∨ ((normalizeListenArgs args).path = none
        ∧ (∃ n, (normalizeListenArgs args).port = some n)
        ∧ (∃ h, (normalizeListenArgs args).host = some h)) := by
  unfold normalizeListenArgs
  split
  · exact Or.inr ⟨rfl, ⟨0, rfl⟩, ⟨_, rfl⟩⟩
  · dsimp only
    split
    · exact Or.inl ⟨⟨_, rfl⟩, rfl, rfl⟩
    · exact Or.inr ⟨rfl, ⟨_, rfl⟩, ⟨_, rfl⟩⟩

/-- Branch characterization: a non-numeric string first argument
yields a path request. -/
theorem normalizeListenArgs_eq_path (args : List JSVal) (h0 : ¬ args.length = 0)
    (s : String)
    (hpc : pathCandidate
        ((if args.getLast? = some JSVal.vfunc then args.dropLast else args).headD
          JSVal.vundef) = some s) :
    normalizeListenArgs args =
      { cb := args.getLast? = some JSVal.vfunc
        path := some s
        backlog :=
          if 1 < (if args.getLast? = some JSVal.vfunc then args.dropLast else args).length
          then some ((if args.getLast? = some JSVal.vfunc then args.dropLast
                      else args).getLastD JSVal.vundef)
          else none } := by
  unfold normalizeListenArgs
  rw [if_neg h0]
  simp only [decide_eq_true_eq]
  rw [hpc]

/-- Branch characterization: any other first argument yields a
port+host request. -/
theorem normalizeListenArgs_eq_port (args : List JSVal) (h0 : ¬ args.length = 0)
    (hpc : pathCandidate
        ((if args.getLast? = some JSVal.vfunc then args.dropLast else args).headD
          JSVal.vundef) = none) :
    normalizeListenArgs args =
      (let args' := if args.getLast? = some JSVal.vfunc then args.dropLast else args
       let firstArg := args'.headD JSVal.vundef
       { cb := args.getLast? = some JSVal.vfunc
         port := some (if decide (1 ≤ args'.length) && jsNumberIsInteger firstArg
                       then jsIntValue firstArg else normalizePort firstArg)
         host := some (if decide (2 ≤ args'.length) && truthy (args'.getD 1 JSVal.vundef)
                       then args'.getD 1 JSVal.vundef else JSVal.vstr "localhost")
         backlog := if 3 ≤ args'.length then some (args'.getD 2 JSVal.vundef)
                    else none }) := by
  unfold normalizeListenArgs
  rw [if_neg h0]
  simp only [decide_eq_true_eq]
  rw [hpc]

/-! ## Trace counting lemmas -/

@[simp] theorem countOnListen_nil : countOnListen [] = 0 := rfl
@[simp] theorem countAttempts_nil : countAttempts [] = 0 := rfl
@[simp] theorem countCompletes_nil : countCompletes [] = 0 := rfl

@[simp] theorem countOnListen_append (a b : List MBEvent) :
    countOnListen (a ++ b) = countOnListen a + countOnListen b :=
  List.countP_append _ a b

@[simp] theorem countAttempts_append (a b : List MBEvent) :
    countAttempts (a ++ b) = countAttempts a + countAttempts b :=
  List.countP_append _ a b

@[simp] theorem countCompletes_append (a b : List MBEvent) :
    countCompletes (a ++ b) = countCompletes a + countCompletes b :=
  List.countP_append _ a b

@[simp] theorem countOnListen_cons_attempt (a : String) (t : List MBEvent) :
    countOnListen (MBEvent.attempt a :: t) = countOnListen t := by
  simp [countOnListen, List.countP_cons]
@[simp] theorem countOnListen_cons_complete (a : String) (ok : Bool) (t : List MBEvent) :
    countOnListen (MBEvent.complete a ok :: t) = countOnListen t := by
  simp [countOnListen, List.countP_cons]
@[simp] theorem countOnListen_cons_onListen (t : List MBEvent) :
    countOnListen (MBEvent.onListen :: t) = countOnListen t + 1 := by
  simp [countOnListen, List.countP_cons]
@[simp] theorem countAttempts_cons_attempt (a : String) (t : List MBEvent) :
    countAttempts (MBEvent.attempt a :: t) = countAttempts t + 1 := by
  simp [countAttempts, List.countP_cons]
@[simp] theorem countAttempts_cons_complete (a : String) (ok : Bool) (t : List MBEvent) :
    countAttempts (MBEvent.complete a ok :: t) = countAttempts t := by
  simp [countAttempts, List.countP_cons]
@[simp] theorem countAttempts_cons_onListen (t : List MBEvent) :
    countAttempts (MBEvent.onListen :: t) = countAttempts t := by
  simp [countAttempts, List.countP_cons]
@[simp] theorem countCompletes_cons_attempt (a : String) (t : List MBEvent) :
    countCompletes (MBEvent.attempt a :: t) = countCompletes t := by
  simp [countCompletes, List.countP_cons]
@[simp] theorem countCompletes_cons_complete (a : String) (ok : Bool) (t : List MBEvent) :
    countCompletes (MBEvent.complete a ok :: t) = countCompletes t + 1 := by
  simp [countCompletes, List.countP_cons]
@[simp] theorem countCompletes_cons_onListen (t : List MBEvent) :
    countCompletes (MBEvent.onListen :: t) = countCompletes t := by
  simp [countCompletes, List.countP_cons]

/-! ## Dual-stack binder invariants -/

theorem mbInit_inv : MBSyncInv mbInit := by
  refine ⟨rfl, ?_, ?_, rfl, rfl, rfl, rfl⟩ <;> simp [mbInit]

/-- Every iteration of the synchronous loop preserves the invariant. -/
theorem mbSyncStep_inv (closing : Bool) (primary : String × Nat) (s : MBState)
    (adr : String) (h : MBSyncInv s) : MBSyncInv (mbSyncStep closing primary s adr) := by
  obtain ⟨hbind, hpl, hpe, hno, hat, hco, hbn⟩ := h
  unfold mbSyncStep
  by_cases hadr : adr ≠ primary.1
  · rw [if_pos hadr]
    dsimp only
    cases hl : s.listening with
    | false =>
      simp only [hl, Bool.false_and, Bool.false_eq_true, if_false]
      exact ⟨by simp [hbind]; omega, by simp, by simp, by simp [hno],
             by simp [hat], by simp [hco], hbn⟩
    | true =>
      have hpend : s.pending ≠ [] := hpl hl
      have hneq : ¬ s.binded + 1 = s.binding + 1 := by
        intro hq
        have : s.pending.length ≠ 0 := by
          intro h0
          exact hpend (List.length_eq_zero.mp h0)
        omega
      cases closing with
      | true =>
        simp only [hl, Bool.and_self, if_true, if_neg hneq]
        exact ⟨by simp [hbind]; omega, fun _ => hpend, fun hp => absurd hp hpend,
               by simp [hno], by simp [hat], by simp [hco], hbn⟩
      | false =>
        simp only [hl, Bool.and_false, Bool.false_eq_true, if_false, if_true,
          if_neg hneq]
        exact ⟨by simp [hbind]; omega, fun _ => hpend, fun hp => absurd hp hpend,
               by simp [hno], by simp [hat], by simp [hco], hbn⟩
  · rw [if_neg hadr]
    exact ⟨hbind, hpl, hpe, hno, hat, hco, hbn⟩

/-- The synchronous loop preserves the invariant. -/
theorem mbSync_foldl_inv (closing : Bool) (primary : String × Nat)
    (addrs : List String) (s : MBState) (h : MBSyncInv s) :
    MBSyncInv (addrs.foldl (mbSyncStep closing primary) s) := by
  induction addrs generalizing s with
  | nil => exact h
  | cons a rest ih => exact ih _ (mbSyncStep_inv closing primary s a h)

/-- A loop iteration on the primary's own address is a no-op. -/
theorem mbSyncStep_skip (closing : Bool) (primary : String × Nat) (s : MBState)
    (adr : String) (h : adr = primary.1) :
    mbSyncStep closing primary s adr = s := by
  unfold mbSyncStep
  rw [if_neg (by simpa using h)]

/-- A loop iteration on a non-primary address with the shared listening
flag clear wires the secondary and initiates its bind. -/
theorem mbSyncStep_initiate (closing : Bool) (primary : String × Nat) (s : MBState)
    (adr : String) (hne : adr ≠ primary.1) (hl : s.listening = false) :
    mbSyncStep closing primary s adr
      = { s with listening := true, binding := s.binding + 1
                 pending := s.pending ++ [(adr, primary.2)]
                 wired := s.wired ++ [(adr, PrimaryEvent.unref),
                   (adr, PrimaryEvent.close), (adr, PrimaryEvent.error)]
                 trace := s.trace ++ [MBEvent.attempt adr] } := by
  unfold mbSyncStep
  rw [if_pos hne]
  dsimp only
  rw [if_neg (by simp [hl]), if_neg (by simp [hl])]

/-- When every resolved address equals the primary's, the loop is a
no-op. -/
theorem mbSync_foldl_id (closing : Bool) (primary : String × Nat)
    (addrs : List String) (s : MBState)
    (h : ∀ a ∈ addrs, a = primary.1) :
    addrs.foldl (mbSyncStep closing primary) s = s := by
  induction addrs generalizing s with
  | nil => rfl
  | cons a rest ih =>
    have ha : a = primary.1 := h a (by simp)
    have hstep : mbSyncStep closing primary s a = s := by
      unfold mbSyncStep
      rw [if_neg (by simpa using ha)]
    rw [List.foldl_cons, hstep]
    exact ih s (fun b hb => h b (by simp [hb]))

/-- One-step unfolding of the asynchronous delivery phase. -/
theorem mbAsyncRun_cons (outcome : Nat → Bool) (adr : String) (port : Nat)
    (rest : List (String × Nat)) (i : Nat) (s : MBState) :
    mbAsyncRun outcome ((adr, port) :: rest) i s
      = mbAsyncRun outcome rest (i + 1)
          { s with listening := if outcome i then s.listening else false
                   binded := s.binded + 1
                   bindings := if outcome i then s.bindings ++ [(adr, port)]
                               else s.bindings
                   trace := s.trace ++ [MBEvent.complete adr (outcome i)]
                     ++ if s.binded + 1 = s.binding then [MBEvent.onListen]
                        else [] } := rfl

/-- Field bookkeeping of the asynchronous delivery phase: counters are
advanced once per pending bind, the retained secondaries are exactly
the successful outcomes, and no new `attempt` events appear. -/
theorem mbAsyncRun_fields (outcome : Nat → Bool) (pend : List (String × Nat))
    (i : Nat) (s : MBState) :
    (mbAsyncRun outcome pend i s).binding = s.binding
    ∧ (mbAsyncRun outcome pend i s).binded = s.binded + pend.length
    ∧ (mbAsyncRun outcome pend i s).pending = s.pending
    ∧ (mbAsyncRun outcome pend i s).wired = s.wired
    ∧ (mbAsyncRun outcome pend i s).bindings
        = s.bindings ++ pendingOutcomes outcome pend i
    ∧ countAttempts (mbAsyncRun outcome pend i s).trace = countAttempts s.trace
    ∧ countCompletes (mbAsyncRun outcome pend i s).trace
        = countCompletes s.trace + pend.length := by
  induction pend generalizing i s with
  | nil => simp [mbAsyncRun, pendingOutcomes]
  | cons a rest ih =>
    obtain ⟨adr, port⟩ := a
    rw [mbAsyncRun_cons]
    obtain ⟨ihb, ihd, ihp, ihw, ihbs, ihat, ihco⟩ := ih (i + 1)
      { s with listening := if outcome i then s.listening else false
               binded := s.binded + 1
               bindings := if outcome i then s.bindings ++ [(adr, port)]
                           else s.bindings
               trace := s.trace ++ [MBEvent.complete adr (outcome i)]
                 ++ if s.binded + 1 = s.binding then [MBEvent.onListen]
                    else [] }
    refine ⟨ihb, ?_, ihp, ihw, ?_, ?_, ?_⟩
    · rw [ihd]
      simp only [List.length_cons]
      omega
    · rw [ihbs]
      simp only [pendingOutcomes]
      by_cases ho : outcome i = true <;> simp [ho]
    · rw [ihat]
      simp [apply_ite countAttempts]
    · rw [ihco]
      simp only [List.length_cons]
      simp [apply_ite countCompletes]
      omega

/-- The asynchronous delivery phase of a nonempty pending list fires
`onListen` exactly once, as the final trace event, when its completion
counter reaches the attempt counter. -/
theorem mbAsyncRun_onListen (outcome : Nat → Bool) (pend : List (String × Nat))
    (i : Nat) (s : MBState) (hb : s.binding = s.binded + pend.length)
    (hne : pend ≠ []) :
    countOnListen (mbAsyncRun outcome pend i s).trace = countOnListen s.trace + 1
    ∧ (mbAsyncRun outcome pend i s).trace.getLast? = some MBEvent.onListen := by
  induction pend generalizing i s with
  | nil => exact absurd rfl hne
  | cons a rest ih =>
    obtain ⟨adr, port⟩ := a
    rw [mbAsyncRun_cons]
    cases rest with
    | nil =>
      have hcond : s.binded + 1 = s.binding := by simp at hb; omega
      rw [if_pos hcond]
      simp only [mbAsyncRun]
      constructor
      · simp
      · rw [List.getLast?_concat]
    | cons b t =>
      have hcond : ¬ s.binded + 1 = s.binding := by simp at hb; omega
      rw [if_neg hcond]
      obtain ⟨hcount, hlast⟩ := ih (i + 1)
        { s with listening := if outcome i then s.listening else false
                 binded := s.binded + 1
                 bindings := if outcome i then s.bindings ++ [(adr, port)]
                             else s.bindings
                 trace := s.trace ++ [MBEvent.complete adr (outcome i)] ++ [] }
        (by simp at hb ⊢; omega) (by simp)
      refine ⟨?_, hlast⟩
      rw [hcount]
      simp

/-- Full characterization of a `multipleBindings` run: the overall
completion callback fires exactly once and after every attempted
secondary bind has completed; the retained secondaries are exactly the
successfully completed initiated binds; a DNS failure completes at once
with no secondary activity; and if every resolved address equals the
primary's bound address the run completes immediately with no bind
initiated. -/
theorem multipleBindings_spec (closing : Bool) (dnsResult : Option (List String))
    (primary : String × Nat) (outcome : Nat → Bool) :
    countOnListen (multipleBindings closing dnsResult primary outcome).trace = 1
    ∧ (multipleBindings closing dnsResult primary outcome).trace.getLast?
        = some MBEvent.onListen
    ∧ countCompletes (multipleBindings closing dnsResult primary outcome).trace
        = countAttempts (multipleBindings closing dnsResult primary outcome).trace
    ∧ (multipleBindings closing dnsResult primary outcome).bindings
        = pendingOutcomes outcome
            (multipleBindings closing dnsResult primary outcome).pending 0
    ∧ (dnsResult = none →
        multipleBindings closing dnsResult primary outcome
          = { mbInit with trace := [MBEvent.onListen] })
    ∧ (∀ addresses, dnsResult = some addresses →
        (∀ a ∈ addresses, a = primary.1) →
        (multipleBindings closing dnsResult primary outcome).trace
            = [MBEvent.onListen]
        ∧ (multipleBindings closing dnsResult primary outcome).pending = []) := by
  cases dnsResult with
  | none =>
    refine ⟨by simp [multipleBindings, mbInit], rfl, ?_, ?_, fun _ => rfl, ?_⟩
    · simp [multipleBindings, mbInit]
    · simp [multipleBindings, mbInit, pendingOutcomes]
    · intro addresses hnone
      exact absurd hnone (by simp)
  | some addresses =>
    have hinv := mbSync_foldl_inv closing primary addresses mbInit mbInit_inv
    unfold multipleBindings
    dsimp only
    by_cases hb0 : (addresses.foldl (mbSyncStep closing primary) mbInit).binding = 0
    · have hpend : (addresses.foldl (mbSyncStep closing primary) mbInit).pending = [] := by
        have h1 := hinv.bind_eq
        rw [hb0] at h1
        exact List.length_eq_zero.mp (by omega)
      rw [if_pos hb0]
      dsimp only
      rw [hpend]
      simp only [mbAsyncRun]
      refine ⟨?_, ?_, ?_, ?_, ?_, ?_⟩
      · simp [hinv.no_onListen]
      · simp [List.getLast?_concat]
      · have h1 := hinv.bind_eq
        rw [hb0] at h1
        have h2 := hinv.attempts_eq
        have h3 := hinv.completes_eq
        simp [h2, h3, hb0]
        omega
      · simp [hinv.bindings_nil, hpend, pendingOutcomes]
      · intro hnone
        exact absurd hnone (by simp)
      · intro addrs haddr hall
        have haddr' : addrs = addresses := by
          injection haddr with h
          exact h.symm
        subst haddr'
        have hid := mbSync_foldl_id closing primary addrs mbInit hall
        rw [hid]
        constructor
        · simp [mbInit]
        · simp [mbInit]
    · have hpne : (addresses.foldl (mbSyncStep closing primary) mbInit).pending ≠ [] := by
        intro hp
        have h1 := hinv.pend_empty hp
        have h2 := hinv.bind_eq
        rw [hp] at h2
        simp at h2
        exact hb0 (by omega)
      rw [if_neg hb0]
      obtain ⟨honce, hlast⟩ :=
        mbAsyncRun_onListen outcome _ 0 _ hinv.bind_eq hpne
      obtain ⟨hfb, hfd, hfp, hfw, hfbs, hfat, hfco⟩ :=
        mbAsyncRun_fields outcome
          (addresses.foldl (mbSyncStep closing primary) mbInit).pending 0
          (addresses.foldl (mbSyncStep closing primary) mbInit)
      refine ⟨?_, hlast, ?_, ?_, ?_, ?_⟩
      · rw [honce, hinv.no_onListen]
      · rw [hfat, hfco, hinv.attempts_eq, hinv.completes_eq, hinv.bind_eq]
      · rw [hfbs, hinv.bindings_nil, hfp]
        simp
      · intro hnone
        exact absurd hnone (by simp)
      · intro addrs haddr hall
        have haddr' : addrs = addresses := by
          injection haddr with h
          exact h.symm
        subst haddr'
        have hid := mbSync_foldl_id closing primary addrs mbInit hall
        rw [hid] at hb0
        exact (hb0 rfl).elim

/-! ## Claim theorems -/

/-- Claim C2: the compiled version-gate predicate accepts a
protocol-version label `v` iff a custom transport factory is supplied,
or http2 is enabled and `v` is `"2.0"`, or http2 is enabled together
with TLS options whose `allowHTTP1` flag is exactly `true` and `v` is
`"1.1"` or `"1.0"`, or http2 is disabled and `v` is `"1.1"` or
`"1.0"`. -/
theorem compileValidateHTTPVersion_spec (o : GateOptions) (v : String) :
    compileValidateHTTPVersion o v = true ↔
      (o.serverFactory = true
        ∨ (o.http2 = true ∧ v = "2.0")
        ∨ (o.http2 = true
            ∧ (∃ h, o.https = some h ∧ h.allowHTTP1 = JSVal.vbool true)
            ∧ (v = "1.1" ∨ v = "1.0"))
        ∨ (o.http2 = false ∧ (v = "1.1" ∨ v = "1.0"))) := by
  obtain ⟨sf, h2, hs⟩ := o
  cases sf <;> cases h2 <;>
    rcases hs with _ | ⟨a⟩ <;>
      (simp [compileValidateHTTPVersion, List.elem_iff]; try tauto)

/-- Claim C8: the address reporter renders a unix-socket path verbatim
with no scheme; a non-colon (IPv4) address as `scheme://addr:port`; a
colon-bearing (IPv6) address bracketed as `scheme://[addr]:port`; the
scheme is `https://` exactly when TLS is configured, as the two
concrete examples `http://127.0.0.1:3000` and `http://[::1]:3000`
illustrate. -/
theorem logServerAddress_spec (p a : String) (port : Nat) (https : Bool) :
    logServerAddress (.unixPath p) https = p
    ∧ logServerAddress (.ip "127.0.0.1" 3000) false = "http://127.0.0.1:3000"
    ∧ logServerAddress (.ip "::1" 3000) false = "http://[::1]:3000"
    ∧ (a.data.contains ':' = false →
        logServerAddress (.ip a port) https
          = (if https then "https://" else "http://") ++ (a ++ ":" ++ toString port))
    ∧ (a.data.contains ':' = true →
        logServerAddress (.ip a port) https
          = (if https then "https://" else "http://")
              ++ ("[" ++ a ++ "]:" ++ toString port)) := by
  refine ⟨rfl, by decide, by decide, ?_, ?_⟩
  · intro h
    have h' : ¬ (':' ∈ a.data) := by simpa using h
    have hs : ("http" ++ (if https then "s" else "") ++ "://")
        = (if https then "https://" else "http://") := by cases https <;> decide
    simp [logServerAddress, hs, h']
  · intro h
    have h' : ':' ∈ a.data := by simpa using h
    have hs : ("http" ++ (if https then "s" else "") ++ "://")
        = (if https then "https://" else "http://") := by cases https <;> decide
    simp [logServerAddress, hs, h']

/-- Witness for C8 at a concrete address. -/
theorem logServerAddress_spec_witness :
    ("::1" : String).data.contains ':' = true
    ∧ logServerAddress (.ip "::1" 8080) true = "https://" ++ ("[" ++ "::1" ++ "]:" ++ toString 8080) := by
  refine ⟨by decide, ?_⟩
  have h := (logServerAddress_spec "/tmp/x.sock" "::1" 8080 true).2.2.2.2 (by decide)
  simpa using h

/-- Claim C9: a normalized request that carries a `path` leaves the
host field undefined (it is never defaulted to `"localhost"`), so a
path-based listen resolves its host to `undefined` and never triggers
the dual-stack localhost reconciliation step. -/
theorem pathListen_no_dualstack (args : List JSVal) (p : String)
    (h : (normalizeListenArgs args).path = some p) :
    (normalizeListenArgs args).host = none
    ∧ resolveListenHost (normalizeListenArgs args).path
        ((normalizeListenArgs args).host) = none
    ∧ triggersDualStack (normalizeListenArgs args).path
        ((normalizeListenArgs args).host) = false := by
  have hh : (normalizeListenArgs args).host = none := by
    rcases normalizeListenArgs_shape args with ⟨_, _, hh⟩ | ⟨hp, _, _⟩
    · exact hh
    · rw [hp] at h; exact absurd h (by simp)
  refine ⟨hh, ?_, ?_⟩
  · rw [h, hh]; simp [resolveListenHost]
  · rw [h, hh]; simp [triggersDualStack, resolveListenHost]

/-- Witness for C9 at a concrete pipe path. -/
theorem pathListen_no_dualstack_witness :
    (normalizeListenArgs [JSVal.vstr "/tmp/x.sock"]).path = some "/tmp/x.sock"
    ∧ (normalizeListenArgs [JSVal.vstr "/tmp/x.sock"]).host = none
    ∧ triggersDualStack (normalizeListenArgs [JSVal.vstr "/tmp/x.sock"]).path
        ((normalizeListenArgs [JSVal.vstr "/tmp/x.sock"]).host) = false := by
  have h := pathListen_no_dualstack [JSVal.vstr "/tmp/x.sock"] "/tmp/x.sock" (by decide)
  exact ⟨by decide, h.1, h.2.2⟩

/-- The default-or-last element of a nonempty list is in the list. -/
theorem getLastD_mem {α : Type} (l : List α) (d : α) (h : l ≠ []) : l.getLastD d ∈ l := by
  rw [List.getLastD_eq_getLast?]
  cases hl : l.getLast? with
  | none => rw [List.getLast?_eq_none_iff] at hl; exact absurd hl h
  | some a => exact List.mem_of_mem_getLast? hl

/-- Claim C7 (amended): for every argument list, the normalized listen
request sets exactly one of `{path}` or `{port, host}`; any stored
backlog is one of the caller's arguments, verbatim and unvalidated;
and the port field is either the first positional value verbatim when
that value is an integral number (even a negative one), or otherwise a
non-negative integer coerced by `normalizePort`, defaulting to 0 if
invalid. -/
theorem normalizeListenArgs_invariants (args : List JSVal) :
    (((∃ s, (normalizeListenArgs args).path = some s)
        ∧ (normalizeListenArgs args).port = none
        ∧ (normalizeListenArgs args).host = none)
      ∨ ((normalizeListenArgs args).path = none
        ∧ (∃ n, (normalizeListenArgs args).port = some n)
        ∧ (∃ h, (normalizeListenArgs args).host = some h)))
    ∧ (∀ n, (normalizeListenArgs args).port = some n →
        0 ≤ n
        ∨ (if args.getLast? = some JSVal.vfunc then args.dropLast else args).headD
            JSVal.vundef = JSVal.vint n)
    ∧ (∀ v, (normalizeListenArgs args).backlog = some v → v ∈ args) := by
  refine ⟨normalizeListenArgs_shape args, ?_, ?_⟩
  · intro n hn
    by_cases h0 : args.length = 0
    · simp [normalizeListenArgs, h0] at hn
      exact Or.inl (by omega)
    · cases hpc : pathCandidate
          ((if args.getLast? = some JSVal.vfunc then args.dropLast
            else args).headD JSVal.vundef) with
      | some s =>
        rw [normalizeListenArgs_eq_path args h0 s hpc] at hn
        simp at hn
      | none =>
        rw [normalizeListenArgs_eq_port args h0 hpc] at hn
        dsimp only at hn
        simp only [Option.some.injEq] at hn
        by_cases hint : jsNumberIsInteger
            ((if args.getLast? = some JSVal.vfunc then args.dropLast
              else args).headD JSVal.vundef) = true
        · by_cases hlen :
              1 ≤ (if args.getLast? = some JSVal.vfunc then args.dropLast
                   else args).length
          · rw [if_pos (by rw [Bool.and_eq_true]
                           exact ⟨decide_eq_true hlen, hint⟩)] at hn
            refine Or.inr ?_
            rw [← hn]
            exact jsNumberIsInteger_eq _ hint
          · rw [if_neg (by rw [Bool.and_eq_true]
                           rintro ⟨h1, _⟩
                           exact hlen (of_decide_eq_true h1))] at hn
            exact Or.inl (hn ▸ normalizePort_nonneg _)
        · rw [if_neg (by rw [Bool.and_eq_true]
                         rintro ⟨_, h2⟩
                         exact hint h2)] at hn
          exact Or.inl (hn ▸ normalizePort_nonneg _)
  · intro v hv
    by_cases h0 : args.length = 0
    · simp [normalizeListenArgs, h0] at hv
    · cases hpc : pathCandidate
          ((if args.getLast? = some JSVal.vfunc then args.dropLast
            else args).headD JSVal.vundef) with
      | some s =>
        rw [normalizeListenArgs_eq_path args h0 s hpc] at hv
        dsimp only at hv
        by_cases hlen :
            1 < (if args.getLast? = some JSVal.vfunc then args.dropLast
                 else args).length
        · rw [if_pos hlen] at hv
          simp only [Option.some.injEq] at hv
          subst hv
          refine (argsAfterCb_sublist args).mem ?_
          refine getLastD_mem _ _ ?_
          intro hnil
          rw [hnil] at hlen
          simp at hlen
        · rw [if_neg hlen] at hv
          exact absurd hv (by simp)
      | none =>
        rw [normalizeListenArgs_eq_port args h0 hpc] at hv
        dsimp only at hv
        by_cases hlen :
            3 ≤ (if args.getLast? = some JSVal.vfunc then args.dropLast
                 else args).length
        · rw [if_pos hlen] at hv
          simp only [Option.some.injEq] at hv
          subst hv
          refine (argsAfterCb_sublist args).mem ?_
          rw [List.getD_eq_getElem _ _ (by omega)]
          exact List.getElem_mem _
        · rw [if_neg hlen] at hv
          exact absurd hv (by simp)

/-- Witness for C7 (amended) at concrete argument lists. -/
theorem normalizeListenArgs_invariants_witness :
    (0 ≤ (3000 : Int)
      ∨ (if [JSVal.vint 3000].getLast? = some JSVal.vfunc
         then [JSVal.vint 3000].dropLast else [JSVal.vint 3000]).headD JSVal.vundef
          = JSVal.vint 3000)
    ∧ JSVal.vint 2 ∈ [JSVal.vint 3000, JSVal.vstr "h", JSVal.vint 2] := by
  refine ⟨(normalizeListenArgs_invariants [JSVal.vint 3000]).2.1 3000 (by decide),
    (normalizeListenArgs_invariants
      [JSVal.vint 3000, JSVal.vstr "h", JSVal.vint 2]).2.2 (JSVal.vint 2) (by decide)⟩

/-- Claim C7 (counterexample): `listen(-1)` is normalized with the
negative integer stored verbatim in the port field — it is not coerced
to a non-negative integer — because `Number.isInteger(-1)` short-circuits
`normalizePort`. -/
theorem normalizeListenArgs_negative_port :
    (normalizeListenArgs [JSVal.vint (-1)]).port = some (-1)
    ∧ ((-1 : Int) < 0)
    ∧ (normalizeListenArgs [JSVal.vint 3000, JSVal.vstr "h", JSVal.vint (-2)]).backlog
        = some (JSVal.vint (-2)) := by
  refine ⟨by decide, by decide, by decide⟩

/-- Claim C1: a listen attempt while `Listening ∧ Closing` fails with
`FST_ERR_REOPENED_CLOSE_SERVER` and one while `Listening ∧ ¬Closing`
fails with `FST_ERR_REOPENED_SERVER`, in both the callback form and the
promise form, with the error delivered to the caller and no bind
attempted — for every bind outcome, TLS configuration, and (in the
promise form, whose guards precede the readiness gate) readiness
result. -/
theorem listen_guard_errors (st : KState) (readyErr : Option FastifyError)
    (outcome : BindOutcome) (https : Bool) (hl : st.listening = true) :
    (st.closing = true →
      (listenCallbackRun st none outcome https).calls
          = [(some .FST_ERR_REOPENED_CLOSE_SERVER, none)]
        ∧ (listenCallbackRun st none outcome https).bindAttempted = false
        ∧ (listenPromiseRun st readyErr outcome https).result
          = .rejected .FST_ERR_REOPENED_CLOSE_SERVER
        ∧ (listenPromiseRun st readyErr outcome https).bindAttempted = false)
    ∧ (st.closing = false →
      (listenCallbackRun st none outcome https).calls
          = [(some .FST_ERR_REOPENED_SERVER, none)]
        ∧ (listenCallbackRun st none outcome https).bindAttempted = false
        ∧ (listenPromiseRun st readyErr outcome https).result
          = .rejected .FST_ERR_REOPENED_SERVER
        ∧ (listenPromiseRun st readyErr outcome https).bindAttempted = false) := by
  obtain ⟨l, c⟩ := st
  cases l
  · exact absurd hl (by simp)
  · cases c <;> simp [listenCallbackRun, listenPromiseRun]

/-- Witness for C1 in both closing states. -/
theorem listen_guard_errors_witness :
    (listenCallbackRun ⟨true, true⟩ none (.failure 0) false).calls
        = [(some FastifyError.FST_ERR_REOPENED_CLOSE_SERVER, none)]
    ∧ (listenPromiseRun ⟨true, false⟩ (some .readyError) (.failure 0) false).result
        = .rejected FastifyError.FST_ERR_REOPENED_SERVER := by
  refine ⟨((listen_guard_errors ⟨true, true⟩ none (.failure 0) false rfl).1 rfl).1, ?_⟩
  exact ((listen_guard_errors ⟨true, false⟩ (some .readyError)
    (.failure 0) false rfl).2 rfl).2.2.1

/-- Claim C5: on an (event-delivered) bind failure, both forms surface
the bind error to the caller exactly once (a single callback invocation
with the error / a single rejection), demote the listening flag to
`false`, and leave no one-shot error observer registered once
settled. -/
theorem bind_failure_surfaced_once (st : KState) (https : Bool) (c : Nat)
    (hl : st.listening = false) :
    (listenCallbackRun st none (.failure c) https).calls
        = [(some (.bindError c), none)]
    ∧ (listenCallbackRun st none (.failure c) https).finalState.listening = false
    ∧ (listenCallbackRun st none (.failure c) https).errorObserverLive = false
    ∧ (listenPromiseRun st none (.failure c) https).result
        = .rejected (.bindError c)
    ∧ (listenPromiseRun st none (.failure c) https).finalState.listening = false
    ∧ (listenPromiseRun st none (.failure c) https).errorObserverLive = false := by
  obtain ⟨l, cl⟩ := st
  cases l
  · simp [listenCallbackRun, listenPromiseRun]
  · exact absurd hl (by simp)

/-- Witness for C5 at a concrete failing bind. -/
theorem bind_failure_surfaced_once_witness :
    (listenCallbackRun ⟨false, false⟩ none (.failure 98) true).calls
        = [(some (FastifyError.bindError 98), none)]
    ∧ (listenPromiseRun ⟨false, false⟩ none (.failure 98) true).finalState.listening
        = false :=
  ⟨(bind_failure_surfaced_once ⟨false, false⟩ true 98 rfl).1,
   (bind_failure_surfaced_once ⟨false, false⟩ true 98 rfl).2.2.2.2.1⟩

/-- Claim C10: in both forms the listening flag is set synchronously
when the bind is initiated — `stateAtBindStart`, captured before the
asynchronous outcome arrives, already has `listening = true` — and a
second listen call issued against that in-flight state is rejected with
`FST_ERR_REOPENED_SERVER` without starting a second bind. -/
theorem listening_flag_set_synchronously (st : KState)
    (outcome outcome2 : BindOutcome) (https : Bool)
    (readyErr2 : Option FastifyError)
    (hl : st.listening = false) (hc : st.closing = false) :
    (listenCallbackRun st none outcome https).bindAttempted = true
    ∧ (listenCallbackRun st none outcome https).stateAtBindStart
        = some ⟨true, false⟩
    ∧ (listenPromiseRun st none outcome https).bindAttempted = true
    ∧ (listenPromiseRun st none outcome https).stateAtBindStart
        = some ⟨true, false⟩
    ∧ (listenCallbackRun ⟨true, false⟩ none outcome2 https).calls
        = [(some .FST_ERR_REOPENED_SERVER, none)]
    ∧ (listenCallbackRun ⟨true, false⟩ none outcome2 https).bindAttempted = false
    ∧ (listenPromiseRun ⟨true, false⟩ readyErr2 outcome2 https).result
        = .rejected .FST_ERR_REOPENED_SERVER
    ∧ (listenPromiseRun ⟨true, false⟩ readyErr2 outcome2 https).bindAttempted
        = false := by
  obtain ⟨l, cl⟩ := st
  cases l
  · cases cl
    · cases outcome <;> cases outcome2 <;>
        simp [listenCallbackRun, listenPromiseRun]
    · exact absurd hc (by simp)
  · exact absurd hl (by simp)

/-- Claim C3: for every DNS result and secondary-bind outcomes, the
overall completion callback of `multipleBindings` is invoked exactly
once, it is the final observable event (so it fires only after every
attempted secondary bind has completed, every attempt having a matching
completion), and when no resolved address differs from the primary's
bound address the run completes immediately with no secondary bind
initiated. -/
theorem multipleBindings_completion_once (closing : Bool)
    (dnsResult : Option (List String)) (primary : String × Nat)
    (outcome : Nat → Bool) :
    countOnListen (multipleBindings closing dnsResult primary outcome).trace = 1
    ∧ (multipleBindings closing dnsResult primary outcome).trace.getLast?
        = some MBEvent.onListen
    ∧ countCompletes (multipleBindings closing dnsResult primary outcome).trace
        = countAttempts (multipleBindings closing dnsResult primary outcome).trace
    ∧ (∀ addresses, dnsResult = some addresses →
        (∀ a ∈ addresses, a = primary.1) →
        (multipleBindings closing dnsResult primary outcome).trace
            = [MBEvent.onListen]
        ∧ (multipleBindings closing dnsResult primary outcome).pending = []) :=
  ⟨(multipleBindings_spec closing dnsResult primary outcome).1,
   (multipleBindings_spec closing dnsResult primary outcome).2.1,
   (multipleBindings_spec closing dnsResult primary outcome).2.2.1,
   (multipleBindings_spec closing dnsResult primary outcome).2.2.2.2.2⟩

/-- Witness for C3: a lookup that only returns the primary's own
address completes immediately with no secondary bind. -/
theorem multipleBindings_completion_once_witness :
    (multipleBindings false (some ["127.0.0.1"]) ("127.0.0.1", 3000)
        (fun _ => true)).trace = [MBEvent.onListen]
    ∧ (multipleBindings false (some ["127.0.0.1"]) ("127.0.0.1", 3000)
        (fun _ => true)).pending = [] :=
  (multipleBindings_completion_once false (some ["127.0.0.1"]) ("127.0.0.1", 3000)
      (fun _ => true)).2.2.2 ["127.0.0.1"] rfl (by decide)

/-- Claim C4: failures inside the dual-stack binder never fail the
overall listen operation — the completion callback fires (exactly once)
for every DNS result and every combination of secondary outcomes; a
DNS-resolution failure completes at once with no secondary activity at
all; and the tracked-bindings list retains exactly the initiated
secondaries whose bind succeeded, every failed secondary being
excluded. -/
theorem multipleBindings_absorbs_failures (closing : Bool)
    (dnsResult : Option (List String)) (primary : String × Nat)
    (outcome : Nat → Bool) :
    countOnListen (multipleBindings closing dnsResult primary outcome).trace = 1
    ∧ (dnsResult = none →
        multipleBindings closing dnsResult primary outcome
          = { mbInit with trace := [MBEvent.onListen] })
    ∧ (multipleBindings closing dnsResult primary outcome).bindings
        = pendingOutcomes outcome
            (multipleBindings closing dnsResult primary outcome).pending 0 :=
  ⟨(multipleBindings_spec closing dnsResult primary outcome).1,
   (multipleBindings_spec closing dnsResult primary outcome).2.2.2.2.1,
   (multipleBindings_spec closing dnsResult primary outcome).2.2.2.1⟩

/-- Witness for C4: a failing DNS lookup still completes successfully
with no secondary bound. -/
theorem multipleBindings_absorbs_failures_witness :
    multipleBindings false none ("127.0.0.1", 3000) (fun _ => false)
      = { mbInit with trace := [MBEvent.onListen] } :=
  (multipleBindings_absorbs_failures false none ("127.0.0.1", 3000)
      (fun _ => false)).2.1 rfl

/-- Claim C6: when the resolver returns two distinct addresses and the
primary is bound to one of them, exactly one secondary bind is
initiated, to the other address (on the primary's port), it is retained
on success, and that secondary is wired to be force-closed on each of
the primary's `unref`, `close` and `error` events; the completion fires
exactly once. -/
theorem multipleBindings_localhost_pair (closing : Bool) (x y : String)
    (pport : Nat) (outcome : Nat → Bool) (hxy : x ≠ y)
    (hok : outcome 0 = true) :
    ((multipleBindings closing (some [x, y]) (x, pport) outcome).pending
        = [(y, pport)]
      ∧ (multipleBindings closing (some [x, y]) (x, pport) outcome).bindings
        = [(y, pport)]
      ∧ (∀ e : PrimaryEvent,
          (y, e) ∈ (multipleBindings closing (some [x, y]) (x, pport) outcome).wired)
      ∧ countOnListen
          (multipleBindings closing (some [x, y]) (x, pport) outcome).trace = 1)
    ∧ ((multipleBindings closing (some [x, y]) (y, pport) outcome).pending
        = [(x, pport)]
      ∧ (multipleBindings closing (some [x, y]) (y, pport) outcome).bindings
        = [(x, pport)]
      ∧ (∀ e : PrimaryEvent,
          (x, e) ∈ (multipleBindings closing (some [x, y]) (y, pport) outcome).wired)
      ∧ countOnListen
          (multipleBindings closing (some [x, y]) (y, pport) outcome).trace = 1) := by
  have hyx : y ≠ x := Ne.symm hxy
  constructor
  · have h1 : List.foldl (mbSyncStep closing (x, pport)) mbInit [x, y]
        = { listening := true, binding := 1, binded := 0
            pending := [(y, pport)], bindings := []
            wired := [(y, PrimaryEvent.unref), (y, PrimaryEvent.close),
                      (y, PrimaryEvent.error)]
            trace := [MBEvent.attempt y] } := by
      rw [List.foldl_cons, List.foldl_cons, List.foldl_nil,
        mbSyncStep_skip closing (x, pport) mbInit x rfl,
        mbSyncStep_initiate closing (x, pport) mbInit y hyx rfl]
      simp [mbInit]
    have hrun : multipleBindings closing (some [x, y]) (x, pport) outcome
        = mbAsyncRun outcome [(y, pport)] 0
            { listening := true, binding := 1, binded := 0
              pending := [(y, pport)], bindings := []
              wired := [(y, PrimaryEvent.unref), (y, PrimaryEvent.close),
                        (y, PrimaryEvent.error)]
              trace := [MBEvent.attempt y] } := by
      unfold multipleBindings
      dsimp only
      rw [h1, if_neg (by simp)]
    rw [hrun, mbAsyncRun_cons, hok]
    refine ⟨rfl, by simp [mbAsyncRun], ?_, by simp [mbAsyncRun]⟩
    intro e
    cases e <;> simp [mbAsyncRun]
  · have h1 : List.foldl (mbSyncStep closing (y, pport)) mbInit [x, y]
        = { listening := true, binding := 1, binded := 0
            pending := [(x, pport)], bindings := []
            wired := [(x, PrimaryEvent.unref), (x, PrimaryEvent.close),
                      (x, PrimaryEvent.error)]
            trace := [MBEvent.attempt x] } := by
      rw [List.foldl_cons, List.foldl_cons, List.foldl_nil,
        mbSyncStep_initiate closing (y, pport) mbInit x hxy rfl,
        mbSyncStep_skip closing (y, pport) _ y rfl]
      simp [mbInit]
    have hrun : multipleBindings closing (some [x, y]) (y, pport) outcome
        = mbAsyncRun outcome [(x, pport)] 0
            { listening := true, binding := 1, binded := 0
              pending := [(x, pport)], bindings := []
              wired := [(x, PrimaryEvent.unref), (x, PrimaryEvent.close),
                        (x, PrimaryEvent.error)]
              trace := [MBEvent.attempt x] } := by
      unfold multipleBindings
      dsimp only
      rw [h1, if_neg (by simp)]
    rw [hrun, mbAsyncRun_cons, hok]
    refine ⟨rfl, by simp [mbAsyncRun], ?_, by simp [mbAsyncRun]⟩
    intro e
    cases e <;> simp [mbAsyncRun]

/-- Witness for C6 on the two loopback addresses. -/
theorem multipleBindings_localhost_pair_witness :
    (multipleBindings false (some ["127.0.0.1", "::1"]) ("127.0.0.1", 3000)
        (fun _ => true)).bindings = [("::1", 3000)]
    ∧ ("::1", PrimaryEvent.close)
        ∈ (multipleBindings false (some ["127.0.0.1", "::1"]) ("127.0.0.1", 3000)
            (fun _ => true)).wired :=
  ⟨((multipleBindings_localhost_pair false "127.0.0.1" "::1" 3000 (fun _ => true)
      (by decide) rfl).1).2.1,
   ((multipleBindings_localhost_pair false "127.0.0.1" "::1" 3000 (fun _ => true)
      (by decide) rfl).1).2.2.1 PrimaryEvent.close⟩

/-- Witness for C10 with both binds' outcomes concrete. -/
theorem listening_flag_set_synchronously_witness :
    (listenCallbackRun ⟨false, false⟩ none (.success (.ip "127.0.0.1" 3000)) false).stateAtBindStart
        = some ⟨true, false⟩
    ∧ (listenPromiseRun ⟨true, false⟩ none (.success (.ip "127.0.0.1" 3000)) false).result
        = .rejected FastifyError.FST_ERR_REOPENED_SERVER :=
  ⟨(listening_flag_set_synchronously ⟨false, false⟩
      (.success (.ip "127.0.0.1" 3000)) (.success (.ip "127.0.0.1" 3000))
      false none rfl rfl).2.1,
   (listening_flag_set_synchronously ⟨false, false⟩
      (.success (.ip "127.0.0.1" 3000)) (.success (.ip "127.0.0.1" 3000))
      false none rfl rfl).2.2.2.2.2.2.1⟩

end ServerJs
